import Mathlib

/-!
Verification of the transaction-categorization prediction engine of this
repository (source: src/server/services/predictions.ts, store shapes from
src/db/schema.ts).

The engine is shallowly embedded: JavaScript strings become lists of
characters, the JavaScript number results of the scoring arithmetic become
rationals, the three drizzle-orm store queries become list operations over
explicit store contents (the joined `account` relation is carried as an
`Option` field on each record, `none` modelling an unresolvable account
reference), and the stable JavaScript Array.prototype.sort with comparator
`(a, b) => b.confidence - a.confidence` becomes a stable insertion sort.
-/

namespace Predict

/-- A JavaScript string, as its list of characters. -/
abbrev Str := List Char

/-- Convenience: build a `Str` from a Lean string literal. -/
def str (s : String) : Str := s.data

/-- The ASCII uppercase/lowercase letter pairs.  This models the effect of
JavaScript `String.prototype.toLowerCase` on the ASCII range (the only
range exercised by the engine's keyword tables and tests). -/
def lowerPairs : List (Char × Char) :=
  [ ('A', 'a'), ('B', 'b'), ('C', 'c'), ('D', 'd'), ('E', 'e'), ('F', 'f')
  , ('G', 'g'), ('H', 'h'), ('I', 'i'), ('J', 'j'), ('K', 'k'), ('L', 'l')
  , ('M', 'm'), ('N', 'n'), ('O', 'o'), ('P', 'p'), ('Q', 'q'), ('R', 'r')
  , ('S', 's'), ('T', 't'), ('U', 'u'), ('V', 'v'), ('W', 'w'), ('X', 'x')
  , ('Y', 'y'), ('Z', 'z') ]

/-- Lowercase a single character (ASCII model of JS `toLowerCase`). -/
def jsToLower (c : Char) : Char :=
  ((lowerPairs.find? fun p => decide (p.1 = c)).map fun p => p.2).getD c

/-- Lowercase a string: `str.toLowerCase()`. -/
def toLowerStr (s : Str) : Str := s.map jsToLower

/-- `hasPrefixL hay sub` : does `hay` start with `sub`? -/
def hasPrefixL : List Char → List Char → Bool
  | _, [] => true
  | [], _ :: _ => false
  | h :: t, c :: cs => decide (h = c) && hasPrefixL t cs

/-- JavaScript `hay.includes(sub)`: `sub` occurs contiguously in `hay`.
In particular `hay.includes("")` is `true` for every `hay`. -/
def jsIncludes (hay sub : List Char) : Bool :=
  match hay with
  | [] => hasPrefixL [] sub
  | c :: t => hasPrefixL (c :: t) sub || jsIncludes t sub

/-- Levenshtein edit distance.  The source fills the standard dynamic
programming matrix with exactly the recurrence below
(`matrix[i][j] = min(del + 1, ins + 1, sub + cost)`); the recursion on
list suffixes computes the same matrix entries. -/
def levenshtein : Str → Str → Nat
  | [], s2 => s2.length
  | s1, [] => s1.length
  | x :: xs, y :: ys =>
    let cost := if x = y then 0 else 1
    min (min (levenshtein xs (y :: ys) + 1) (levenshtein (x :: xs) ys + 1))
      (levenshtein xs ys + cost)
termination_by s1 s2 => s1.length + s2.length
decreasing_by
  all_goals simp only [List.length_cons]
  all_goals omega

/-- Body of `calculateSimilarity` after both inputs have been lowercased:
exact equality gives 1, containment in either direction gives 0.8, and
otherwise `1 - distance / maxLength`. -/
def simBody (s1 s2 : Str) : ℚ :=
  if s1 = s2 then 1
  else if jsIncludes s1 s2 || jsIncludes s2 s1 then 4/5
  else 1 - (levenshtein s1 s2 : ℚ) / ((max s1.length s2.length : Nat) : ℚ)

/-- `calculateSimilarity(str1, str2)` from predictions.ts: lowercases both
inputs and applies the exact / contains / Levenshtein cascade. -/
def calculateSimilarity (str1 str2 : Str) : ℚ :=
  simBody (toLowerStr str1) (toLowerStr str2)

/-- The `(id, name)` projection of an account row that the pattern and
historical queries join in (`with: { account: { columns: { id, name } } }`). -/
structure AccountRef where
  id : Int
  name : Str
deriving DecidableEq

/-- A row of the `accounts` table (fields used by the engine). -/
structure Account where
  id : Int
  code : Str
  name : Str
  type : Str
  active : Bool
deriving DecidableEq

/-- A `transactions` row; the engine reads only `description`. -/
structure Transaction where
  id : Int
  description : Str
  amount : ℚ
deriving DecidableEq

/-- The three pattern match modes (`type` column of `patterns`; the column
is text, with exactly these values per the schema comment — in the source
any other value leaves the raw score at its initialisation 0 and the
pattern is dropped by the 0.5 threshold, so only these three are
modelled). -/
inductive PatternType where
  | exact
  | fuzzy
  | keyword
deriving DecidableEq

/-- A row of the `patterns` table, with the joined account carried as an
`Option` (`none` = the account reference does not resolve). -/
structure Pattern where
  pattern : Str
  type : PatternType
  explanation : Option Str
  accountId : Int
  confidence : ℚ
  enabled : Bool
  account : Option AccountRef
deriving DecidableEq

/-- A row of the `historical_matches` table, with the joined account.
`frequency` counts confirmed uses (integer column, default 1, only ever
incremented) and `lastUsed` is a timestamp, so both are modelled as
naturals. -/
structure HistoricalMatch where
  transactionDescription : Str
  explanation : Str
  accountId : Int
  frequency : Nat
  lastUsed : Nat
  account : Option AccountRef
deriving DecidableEq

/-- The provenance tag of a prediction. -/
inductive PredictionType where
  | pattern
  | database
  | ai
deriving DecidableEq

/-- The engine's output record. -/
structure Prediction where
  explanation : Str
  accountId : Int
  accountName : Str
  confidence : ℚ
  type : PredictionType
deriving DecidableEq

/-- Stable insertion step: the inserted element `x` goes after every
element `y` with `before y x = true` and before the first other one.
With `before y x` = "`y` strictly precedes `x` under the sort key",
folding this over a list from the right is exactly a stable sort. -/
def insertStable (before : α → α → Bool) (x : α) : List α → List α
  | [] => [x]
  | y :: ys => if before y x then y :: insertStable before x ys else x :: y :: ys

/-- Stable sort, modelling JavaScript `Array.prototype.sort` (stable per
the ECMAScript specification) under a strict comparator. -/
def sortStable (before : α → α → Bool) (l : List α) : List α :=
  l.foldr (insertStable before) []

/-- Comparator of `.sort((a, b) => b.confidence - a.confidence)`:
`y` strictly precedes `x` iff `y.confidence > x.confidence`. -/
def predBefore (y x : Prediction) : Bool := decide (x.confidence < y.confidence)

/-- Comparator of `orderBy: [desc(frequency), desc(lastUsed)]`. -/
def histBefore (y x : HistoricalMatch) : Bool :=
  decide (x.frequency < y.frequency) ||
    (decide (x.frequency = y.frequency) && decide (x.lastUsed < y.lastUsed))

/-- The raw match score computed by the `switch (pattern.type)` in
`getPatternPredictions`: `exact` compares the pattern string to the
description verbatim, `fuzzy` calls the similarity utility, `keyword`
does a case-insensitive containment check worth 0.9. -/
def rawScore (p : Pattern) (description : Str) : ℚ :=
  match p.type with
  | .exact => if p.pattern = description then 1 else 0
  | .fuzzy => calculateSimilarity p.pattern description
  | .keyword =>
    if jsIncludes (toLowerStr description) (toLowerStr p.pattern) then 9/10 else 0

/-- The per-pattern body of the `.map` in `getPatternPredictions`:
`if (confidence < 0.5 || !pattern.account) return null`, otherwise build
the prediction with final confidence = stored weight × raw score. -/
def mkPatternPrediction (tx : Transaction) (p : Pattern) : Option Prediction :=
  let confidence := rawScore p tx.description
  if confidence < 1/2 then none
  else
    match p.account with
    | none => none
    | some acc =>
      some ⟨p.explanation.getD [], p.accountId, acc.name,
        p.confidence * confidence, PredictionType.pattern⟩

/-- `getPatternPredictions`: query the enabled patterns, score each,
drop the nulls, sort descending by confidence, keep the top 3. -/
def getPatternPredictions (store : List Pattern) (tx : Transaction) : List Prediction :=
  (sortStable predBefore
    ((store.filter fun p => p.enabled).filterMap (mkPatternPrediction tx))).take 3

/-- The historical confidence formula
`Math.min(0.9, 0.5 + match.frequency / 10)`. -/
def historicalConfidence (frequency : Nat) : ℚ :=
  min (9/10) (1/2 + (frequency : ℚ) / 10)

/-- `getDatabasePredictions`: query historical matches whose stored
description contains the transaction description (SQL
`LIKE '%description%'`), ordered by frequency then last-used descending,
limited to 3; records whose account does not resolve are filtered out and
the rest mapped to predictions. -/
def getDatabasePredictions (store : List HistoricalMatch) (tx : Transaction) :
    List Prediction :=
  ((sortStable histBefore
      (store.filter fun m => jsIncludes m.transactionDescription tx.description)).take
    3).filterMap fun m =>
      match m.account with
      | none => none
      | some acc =>
        some ⟨m.explanation, m.accountId, acc.name,
          historicalConfidence m.frequency, PredictionType.database⟩

/-- The static keyword table `commonPatterns` of `getAIPredictions`:
keyword ↦ (account classification, static confidence). -/
def commonPatterns : List (Str × Str × ℚ) :=
  [ (str "salary", str "income", 9/10)
  , (str "rent", str "expense", 17/20)
  , (str "interest", str "income", 4/5)
  , (str "payment", str "expense", 7/10)
  , (str "transfer", str "asset", 3/5) ]

/-- JavaScript object property lookup `commonPatterns[word]`. -/
def lookupCommon (w : Str) : Option (Str × ℚ) :=
  (commonPatterns.find? fun e => decide (e.1 = w)).map fun e => e.2

/-- JavaScript `s.split(" ")` (single-space separator; `"".split(" ")`
is `[""]`). -/
def splitOnSpaceAux : List Char → List Char → List (List Char)
  | [], cur => [cur.reverse]
  | c :: cs, cur =>
    if c = ' ' then cur.reverse :: splitOnSpaceAux cs []
    else splitOnSpaceAux cs (c :: cur)

/-- `description.toLowerCase().split(" ")`. -/
def splitOnSpace (s : List Char) : List (List Char) := splitOnSpaceAux s []

/-- The tokens of `getAIPredictions`. -/
def aiKeywords (description : Str) : List Str := splitOnSpace (toLowerStr description)

/-- The keyword-table hits of the tokens, in token order. -/
def aiMatches (description : Str) : List (Str × ℚ) :=
  (aiKeywords description).filterMap lookupCommon

/-- `matches.reduce((prev, current) => current.confidence > prev.confidence
? current : prev, matches[0])`, returning `none` when there are no matches
(`if (matches.length === 0) return []`).  JS `reduce` with an explicit
initial value runs over every element, the first one included. -/
def aiBest : List (Str × ℚ) → Option (Str × ℚ)
  | [] => none
  | m :: ms =>
    some ((m :: ms).foldl (fun prev current =>
      if prev.2 < current.2 then current else prev) m)

/-- The template string `AI suggested sometype based on description`. -/
def aiExplanation (t : Str) : Str :=
  str "AI suggested " ++ t ++ str " based on description"

/-- `getAIPredictions`: tokenize, look tokens up in the keyword table,
keep the best hit, then take the first account whose `type` equals the
selected classification (`where: eq(accounts.type, bestMatch.type),
limit: 1` — note: no `active` condition). -/
def getAIPredictions (accountStore : List Account) (tx : Transaction) :
    List Prediction :=
  match aiBest (aiMatches tx.description) with
  | none => []
  | some best =>
    match (accountStore.filter fun a => decide (a.type = best.1)).take 1 with
    | [] => []
    | acc :: _ =>
      [⟨aiExplanation best.1, acc.id, acc.name, best.2, PredictionType.ai⟩]

/-- The three stores the engine reads. -/
structure Stores where
  patternStore : List Pattern
  historyStore : List HistoricalMatch
  accountStore : List Account
deriving DecidableEq

/-- `generatePredictions` on the success path: concatenate the three
sources in order pattern, database, ai, sort descending by confidence
(stably) and keep the top 5. -/
def generatePredictions (st : Stores) (tx : Transaction) : List Prediction :=
  (sortStable predBefore
    (getPatternPredictions st.patternStore tx ++
      getDatabasePredictions st.historyStore tx ++
      getAIPredictions st.accountStore tx)).take 5

/-- `generatePredictions` with the `Promise.all` rejection semantics made
explicit: each source settles to `Except.ok results` or, when its store
query throws, `Except.error e`; `Promise.all` resolves with all three
result lists only when none rejected, and otherwise rejects with a
rejection reason (modelled here as the first in array order — with at
most one rejecting source, as in every statement below, this is exact). -/
def generatePredictionsE (rp rd ra : Except String (List Prediction)) :
    Except String (List Prediction) :=
  match rp, rd, ra with
  | .ok p, .ok d, .ok a => .ok ((sortStable predBefore (p ++ d ++ a)).take 5)
  | .error e, _, _ => .error e
  | _, .error e, _ => .error e
  | _, _, .error e => .error e

attribute [local semireducible] Rat.mul Rat.add Rat.sub Rat.inv

/-! ### Lowercasing lemmas -/

theorem lowerPairs_fixed :
    ∀ q ∈ lowerPairs, (lowerPairs.find? fun r => decide (r.1 = q.2)) = none := by
  decide

theorem jsToLower_idem (c : Char) : jsToLower (jsToLower c) = jsToLower c := by
  cases hf : lowerPairs.find? fun p => decide (p.1 = c) with
  | none =>
    have h1 : jsToLower c = c := by unfold jsToLower; rw [hf]; rfl
    rw [h1]
    exact h1
  | some p =>
    have h1 : jsToLower c = p.2 := by unfold jsToLower; rw [hf]; rfl
    have hp : p ∈ lowerPairs := List.mem_of_find?_eq_some hf
    have h2 := lowerPairs_fixed p hp
    rw [h1]
    unfold jsToLower
    rw [h2]
    rfl

theorem toLowerStr_idem (s : Str) : toLowerStr (toLowerStr s) = toLowerStr s := by
  induction s with
  | nil => rfl
  | cons c cs ih =>
    show jsToLower (jsToLower c) :: toLowerStr (toLowerStr cs) =
      jsToLower c :: toLowerStr cs
    rw [jsToLower_idem, ih]

/-! ### Levenshtein lemmas -/

theorem levenshtein_nil_right (s : Str) : levenshtein s [] = s.length := by
  cases s <;> simp [levenshtein]

theorem levenshtein_comm (s1 s2 : Str) : levenshtein s1 s2 = levenshtein s2 s1 := by
  induction s1 generalizing s2 with
  | nil => simp [levenshtein, levenshtein_nil_right]
  | cons x xs ih =>
    induction s2 with
    | nil => simp [levenshtein, levenshtein_nil_right]
    | cons y ys ih2 =>
      simp only [levenshtein]
      rw [ih (y :: ys), ih ys, ih2]
      by_cases h : x = y
      · subst h
        simp only [if_pos rfl]
        omega
      · rw [if_neg h, if_neg (fun hh : y = x => h hh.symm)]
        omega

theorem levenshtein_le_max (s1 s2 : Str) :
    levenshtein s1 s2 ≤ max s1.length s2.length := by
  induction s1 generalizing s2 with
  | nil => simp only [levenshtein, List.length_nil]; omega
  | cons x xs ih =>
    cases s2 with
    | nil => simp only [levenshtein, List.length_nil]; omega
    | cons y ys =>
      have h := ih ys
      have hc : (if x = y then 0 else 1) ≤ 1 := by split <;> omega
      simp only [levenshtein, List.length_cons]
      omega

/-! ### Similarity lemmas -/

theorem simBody_bounds (s1 s2 : Str) : 0 ≤ simBody s1 s2 ∧ simBody s1 s2 ≤ 1 := by
  unfold simBody
  split
  · norm_num
  · split
    · norm_num
    · have hd : levenshtein s1 s2 ≤ max s1.length s2.length := levenshtein_le_max s1 s2
      set M : Nat := max s1.length s2.length with hM
      have hq : 0 ≤ (levenshtein s1 s2 : ℚ) / (M : ℚ) :=
        div_nonneg (by positivity) (by positivity)
      constructor
      · rcases Nat.eq_zero_or_pos M with h0 | hpos
        · rw [h0]
          norm_num
        · have h1 : (levenshtein s1 s2 : ℚ) / (M : ℚ) ≤ 1 := by
            rw [div_le_one (by exact_mod_cast hpos)]
            exact_mod_cast hd
          linarith
      · linarith

theorem simBody_comm (s1 s2 : Str) : simBody s1 s2 = simBody s2 s1 := by
  unfold simBody
  by_cases h : s1 = s2
  · subst h
    simp
  · rw [if_neg h, if_neg (fun hh : s2 = s1 => h hh.symm), Bool.or_comm,
      levenshtein_comm, Nat.max_comm s1.length s2.length]

theorem calculateSimilarity_bounds (a b : Str) :
    0 ≤ calculateSimilarity a b ∧ calculateSimilarity a b ≤ 1 :=
  simBody_bounds _ _

theorem calculateSimilarity_symm (a b : Str) :
    calculateSimilarity a b = calculateSimilarity b a :=
  simBody_comm _ _

theorem calculateSimilarity_lower (a b : Str) :
    calculateSimilarity (toLowerStr a) (toLowerStr b) = calculateSimilarity a b := by
  unfold calculateSimilarity
  rw [toLowerStr_idem, toLowerStr_idem]

/-! ### Stable sort lemmas -/

theorem insertStable_perm (before : α → α → Bool) (x : α) (l : List α) :
    (insertStable before x l).Perm (x :: l) := by
  induction l with
  | nil => exact List.Perm.refl _
  | cons y ys ih =>
    simp only [insertStable]
    split
    · exact (ih.cons y).trans (List.Perm.swap x y ys)
    · exact List.Perm.refl _

theorem sortStable_perm (before : α → α → Bool) (l : List α) :
    (sortStable before l).Perm l := by
  induction l with
  | nil => exact List.Perm.refl _
  | cons x xs ih =>
    exact (insertStable_perm before x (sortStable before xs)).trans (ih.cons x)

theorem mem_sortStable {before : α → α → Bool} {l : List α} {a : α} :
    a ∈ sortStable before l ↔ a ∈ l :=
  (sortStable_perm before l).mem_iff

/-- Descending order on confidences, as produced by the aggregation sort. -/
abbrev SortedDesc (l : List Prediction) : Prop :=
  l.Pairwise fun a b => b.confidence ≤ a.confidence

theorem insertStable_sortedDesc (x : Prediction) (l : List Prediction)
    (hl : SortedDesc l) : SortedDesc (insertStable predBefore x l) := by
  induction l with
  | nil => simp [insertStable]
  | cons y ys ih =>
    rcases List.pairwise_cons.mp hl with ⟨hy, hys⟩
    simp only [insertStable]
    split
    case isTrue h =>
      have hxy : x.confidence < y.confidence := of_decide_eq_true h
      refine List.pairwise_cons.mpr ⟨?_, ih hys⟩
      intro b hb
      rcases List.mem_cons.mp ((insertStable_perm predBefore x ys).mem_iff.mp hb) with
        rfl | hbys
      · exact le_of_lt hxy
      · exact hy b hbys
    case isFalse h =>
      have hxy : y.confidence ≤ x.confidence :=
        le_of_not_lt fun hc => h (decide_eq_true hc)
      refine List.pairwise_cons.mpr ⟨?_, hl⟩
      intro b hb
      rcases List.mem_cons.mp hb with rfl | hbys
      · exact hxy
      · exact le_trans (hy b hbys) hxy

theorem sortStable_sortedDesc (l : List Prediction) :
    SortedDesc (sortStable predBefore l) := by
  induction l with
  | nil => simp [sortStable]
  | cons x xs ih => exact insertStable_sortedDesc x (sortStable predBefore xs) ih

theorem filter_insertStable (x : Prediction) (l : List Prediction) (c : ℚ) :
    (insertStable predBefore x l).filter (fun a => decide (a.confidence = c)) =
      if x.confidence = c
      then x :: l.filter (fun a => decide (a.confidence = c))
      else l.filter (fun a => decide (a.confidence = c)) := by
  induction l with
  | nil => by_cases hx : x.confidence = c <;> simp [insertStable, hx]
  | cons y ys ih =>
    simp only [insertStable]
    split
    case isTrue h =>
      have hlt : x.confidence < y.confidence := of_decide_eq_true h
      by_cases hx : x.confidence = c
      · have hy : ¬ y.confidence = c := by
          intro hyc
          rw [hx, hyc] at hlt
          exact lt_irrefl c hlt
        simp [List.filter_cons, hy, ih, hx]
      · by_cases hyc : y.confidence = c <;> simp [List.filter_cons, hyc, ih, hx]
    case isFalse h =>
      by_cases hx : x.confidence = c <;> by_cases hyc : y.confidence = c <;>
        simp [List.filter_cons, hx, hyc]

theorem filter_sortStable (l : List Prediction) (c : ℚ) :
    (sortStable predBefore l).filter (fun a => decide (a.confidence = c)) =
      l.filter (fun a => decide (a.confidence = c)) := by
  induction l with
  | nil => rfl
  | cons x xs ih =>
    show (insertStable predBefore x (sortStable predBefore xs)).filter _ = _
    rw [filter_insertStable]
    by_cases hx : x.confidence = c <;> simp [List.filter_cons, hx, ih]

/-! ### Heuristic classifier lemmas -/

theorem lookupCommon_bounds {w : Str} {v : Str × ℚ} (h : lookupCommon w = some v) :
    0 ≤ v.2 ∧ v.2 ≤ 1 := by
  unfold lookupCommon at h
  cases hf : commonPatterns.find? fun e => decide (e.1 = w) with
  | none => rw [hf] at h; exact absurd h (by simp)
  | some e =>
    rw [hf] at h
    have he : e ∈ commonPatterns := List.mem_of_find?_eq_some hf
    have hb : ∀ e2 ∈ commonPatterns, 0 ≤ e2.2.2 ∧ e2.2.2 ≤ 1 := by decide
    have hbe := hb e he
    injection h with h2
    rw [← h2]
    exact hbe

theorem aiMatches_bounds (desc : Str) : ∀ m ∈ aiMatches desc, 0 ≤ m.2 ∧ m.2 ≤ 1 := by
  intro m hm
  rcases List.mem_filterMap.mp hm with ⟨w, _, hw⟩
  exact lookupCommon_bounds hw

theorem foldl_best_bounds (ms : List (Str × ℚ)) (acc : Str × ℚ)
    (hacc : 0 ≤ acc.2 ∧ acc.2 ≤ 1) (hm : ∀ m ∈ ms, 0 ≤ m.2 ∧ m.2 ≤ 1) :
    0 ≤ (ms.foldl (fun prev current =>
        if prev.2 < current.2 then current else prev) acc).2 ∧
      (ms.foldl (fun prev current =>
        if prev.2 < current.2 then current else prev) acc).2 ≤ 1 := by
  induction ms generalizing acc with
  | nil => exact hacc
  | cons m ms ih =>
    simp only [List.foldl_cons]
    refine ih _ ?_ fun m2 hm2 => hm m2 (List.mem_cons_of_mem _ hm2)
    split
    · exact hm m (List.mem_cons_self _ _)
    · exact hacc

theorem getAIPredictions_bounds {store : List Account} {tx : Transaction} :
    ∀ pr ∈ getAIPredictions store tx, 0 ≤ pr.confidence ∧ pr.confidence ≤ 1 := by
  intro pr hpr
  unfold getAIPredictions at hpr
  split at hpr
  · exact absurd hpr (List.not_mem_nil pr)
  next best hbest =>
    have hbb : 0 ≤ best.2 ∧ best.2 ≤ 1 := by
      unfold aiBest at hbest
      cases hms : aiMatches tx.description with
      | nil => rw [hms] at hbest; exact absurd hbest (by simp)
      | cons m ms =>
        rw [hms] at hbest
        injection hbest with hb
        rw [← hb]
        have hall := aiMatches_bounds tx.description
        rw [hms] at hall
        exact foldl_best_bounds (m :: ms) m (hall m (List.mem_cons_self _ _)) hall
    split at hpr
    · exact absurd hpr (List.not_mem_nil pr)
    next acc rest hacc =>
      have hpr2 : pr =
          ⟨aiExplanation best.1, acc.id, acc.name, best.2, PredictionType.ai⟩ :=
        List.mem_singleton.mp hpr
      rw [hpr2]
      exact hbb

/-! ### Pattern matcher lemmas -/

theorem mkPatternPrediction_none_iff (tx : Transaction) (p : Pattern) :
    mkPatternPrediction tx p = none ↔
      rawScore p tx.description < 1/2 ∨ p.account = none := by
  simp only [mkPatternPrediction]
  split
  case isTrue h => exact iff_of_true rfl (Or.inl h)
  case isFalse h =>
    cases hacc : p.account with
    | none => exact iff_of_true rfl (Or.inr rfl)
    | some acc =>
      refine iff_of_false (by simp) ?_
      rintro (hlt | hsome)
      · exact h hlt
      · exact Option.noConfusion hsome

theorem mkPatternPrediction_some {tx : Transaction} {p : Pattern} {pr : Prediction}
    (h : mkPatternPrediction tx p = some pr) :
    pr.confidence = p.confidence * rawScore p tx.description ∧
      ¬ rawScore p tx.description < 1/2 ∧ p.account ≠ none := by
  simp only [mkPatternPrediction] at h
  split at h
  case isTrue hlt => exact absurd h (by simp)
  case isFalse hlt =>
    cases hacc : p.account with
    | none => rw [hacc] at h; exact absurd h (by simp)
    | some acc =>
      rw [hacc] at h
      injection h with h2
      rw [← h2]
      exact ⟨rfl, hlt, by simp [hacc]⟩

theorem getPatternPredictions_mem {store : List Pattern} {tx : Transaction}
    {pr : Prediction} (h : pr ∈ getPatternPredictions store tx) :
    ∃ p, p ∈ store ∧ p.enabled = true ∧ mkPatternPrediction tx p = some pr := by
  have h1 : pr ∈ sortStable predBefore
      ((store.filter fun p => p.enabled).filterMap (mkPatternPrediction tx)) :=
    List.take_subset 3 _ h
  have h2 := mem_sortStable.mp h1
  rcases List.mem_filterMap.mp h2 with ⟨p, hpmem, hp⟩
  rcases List.mem_filter.mp hpmem with ⟨hps, hpe⟩
  exact ⟨p, hps, hpe, hp⟩

theorem rawScore_bounds (p : Pattern) (description : Str) :
    0 ≤ rawScore p description ∧ rawScore p description ≤ 1 := by
  unfold rawScore
  split
  · split <;> norm_num
  · exact calculateSimilarity_bounds _ _
  · split <;> norm_num

/-! ### Historical matcher lemmas -/

theorem historicalConfidence_bounds (f : Nat) :
    0 ≤ historicalConfidence f ∧ historicalConfidence f ≤ 1 := by
  unfold historicalConfidence
  constructor
  · apply le_min <;> positivity
  · exact le_trans (min_le_left _ _) (by norm_num)

theorem getDatabasePredictions_mem {store : List HistoricalMatch} {tx : Transaction}
    {pr : Prediction} (h : pr ∈ getDatabasePredictions store tx) :
    ∃ m : HistoricalMatch, pr.confidence = historicalConfidence m.frequency := by
  unfold getDatabasePredictions at h
  rcases List.mem_filterMap.mp h with ⟨m, _, hm⟩
  refine ⟨m, ?_⟩
  cases hacc : m.account with
  | none => rw [hacc] at hm; exact absurd hm (by simp)
  | some acc =>
    rw [hacc] at hm
    injection hm with h2
    rw [← h2]

/-! ### Aggregator lemmas -/

theorem generatePredictions_mem {st : Stores} {tx : Transaction} {pr : Prediction}
    (h : pr ∈ generatePredictions st tx) :
    pr ∈ getPatternPredictions st.patternStore tx ∨
      pr ∈ getDatabasePredictions st.historyStore tx ∨
      pr ∈ getAIPredictions st.accountStore tx := by
  have h1 : pr ∈ sortStable predBefore
      (getPatternPredictions st.patternStore tx ++
        getDatabasePredictions st.historyStore tx ++
        getAIPredictions st.accountStore tx) :=
    List.take_subset 5 _ h
  have h2 := mem_sortStable.mp h1
  rcases List.mem_append.mp h2 with h3 | h3
  · rcases List.mem_append.mp h3 with h4 | h4
    · exact Or.inl h4
    · exact Or.inr (Or.inl h4)
  · exact Or.inr (Or.inr h3)

/-! ### Claim theorems -/

/-- C1 (corrected): the source's `generatePredictions` awaits its three
sources with a bare `Promise.all` and no per-source catch, so a throwing
source rejects the whole aggregation with that error instead of degrading
to an empty list for that source; the other sources' results are not
returned.  Only when all three sources succeed are their results
concatenated, sorted and truncated. -/
theorem C1_no_per_source_isolation (e : String) (p d a : List Prediction)
    (rd ra : Except String (List Prediction)) (st : Stores) (tx : Transaction) :
    generatePredictionsE (Except.error e) rd ra = Except.error e
    ∧ generatePredictionsE (Except.ok p) (Except.error e) ra = Except.error e
    ∧ generatePredictionsE (Except.ok p) (Except.ok d) (Except.error e) =
        Except.error e
    ∧ generatePredictionsE (Except.ok p) (Except.ok d) (Except.ok a) =
        Except.ok ((sortStable predBefore (p ++ d ++ a)).take 5)
    ∧ generatePredictionsE (Except.ok (getPatternPredictions st.patternStore tx))
        (Except.ok (getDatabasePredictions st.historyStore tx))
        (Except.ok (getAIPredictions st.accountStore tx)) =
        Except.ok (generatePredictions st tx) := by
  refine ⟨?_, ?_, rfl, rfl, rfl⟩
  · cases rd <;> cases ra <;> rfl
  · cases ra <;> rfl

/-- C1 counterexample: with the pattern source rejecting and the other two
sources resolving with one prediction each, the aggregate is the
rejection — not the fail-soft aggregate, promised by the claim, in which
the failing source contributes an empty list and the others survive. -/
theorem C1_counterexample :
    generatePredictionsE (Except.error "pattern store failure")
        (Except.ok [⟨str "h", 2, str "B", 3/5, PredictionType.database⟩])
        (Except.ok [⟨str "x", 3, str "C", 9/10, PredictionType.ai⟩]) ≠
      Except.ok ((sortStable predBefore
        ([] ++ [⟨str "h", 2, str "B", 3/5, PredictionType.database⟩] ++
          [⟨str "x", 3, str "C", 9/10, PredictionType.ai⟩])).take 5) := by
  intro h
  exact Except.noConfusion h

/-- C2 (corrected): the historical confidence `min(0.9, 0.5 + frequency/10)`
is non-decreasing in frequency, equals 0.6 at frequency 1, and never
exceeds 0.9 — but it is not strictly below 0.9 for every frequency: from
frequency 4 on it equals 0.9 exactly. -/
theorem C2_historical_confidence (f g : Nat) (h : f ≤ g) :
    historicalConfidence f ≤ historicalConfidence g
    ∧ historicalConfidence 1 = 3/5
    ∧ historicalConfidence f ≤ 9/10
    ∧ (4 ≤ f → historicalConfidence f = 9/10) := by
  refine ⟨?_, by decide, min_le_left _ _, fun h4 => ?_⟩
  · unfold historicalConfidence
    have hfg : (f : ℚ) ≤ (g : ℚ) := Nat.cast_le.mpr h
    apply min_le_min le_rfl
    linarith
  · unfold historicalConfidence
    have h4q : (4 : ℚ) ≤ (f : ℚ) := by exact_mod_cast h4
    have : (9:ℚ)/10 ≤ 1/2 + (f : ℚ)/10 := by linarith
    exact min_eq_left this

/-- C2 witness: frequency 1 vs 2 instantiates monotonicity, and
frequency 5 instantiates the saturation at 0.9. -/
theorem C2_witness :
    historicalConfidence 1 ≤ historicalConfidence 2
    ∧ historicalConfidence 5 = 9/10 :=
  ⟨(C2_historical_confidence 1 2 (by decide)).1,
    (C2_historical_confidence 5 5 (le_refl 5)).2.2.2 (by decide)⟩

/-- C2 counterexample: at frequency 4 the confidence is exactly 0.9, so it
is not strictly below 0.9 for every frequency as the claim states. -/
theorem C2_counterexample :
    historicalConfidence 4 = 9/10 ∧ ¬ historicalConfidence 4 < 9/10 :=
  ⟨by decide, by decide⟩

/-- C3 (corrected): two empty strings score 1.0, but an empty string
against a non-empty one scores 0.8, not 0.0: JavaScript treats the empty
string as a substring of every string, so `s.includes("")` is `true` and
the containment branch fires before the Levenshtein normalization the
claim's 0.0 would come from. -/
theorem C3_empty_strings :
    calculateSimilarity [] [] = 1
    ∧ (∀ s : Str, s ≠ [] →
        calculateSimilarity [] s = 4/5 ∧ calculateSimilarity s [] = 4/5) := by
  refine ⟨by decide, fun s hs => ?_⟩
  obtain ⟨c, cs, rfl⟩ : ∃ c cs, s = c :: cs := by
    cases s with
    | nil => exact absurd rfl hs
    | cons c cs => exact ⟨c, cs, rfl⟩
  constructor
  · show simBody [] (jsToLower c :: toLowerStr cs) = 4/5
    simp [simBody, jsIncludes, hasPrefixL]
  · show simBody (jsToLower c :: toLowerStr cs) [] = 4/5
    simp [simBody, jsIncludes, hasPrefixL]

/-- C3 witness: the non-empty side instantiated at the one-letter string. -/
theorem C3_witness :
    calculateSimilarity [] (str "a") = 4/5
    ∧ calculateSimilarity (str "a") [] = 4/5 :=
  C3_empty_strings.2 (str "a") (by decide)

/-- C3 counterexample: similarity of the empty string against a non-empty
string is not 0.0 as the claim states (it is 0.8). -/
theorem C3_counterexample : ¬ calculateSimilarity [] (str "a") = 0 := by decide

/-- C4 (corrected): the schema stores the pattern weight as a
`decimal(3, 2)` with no range constraint, so a stored weight above 1
yields a prediction confidence above 1; the interval claim holds for the
whole engine only under the added assumption that every stored pattern
weight lies in [0, 1] (the historical and heuristic sources need no
assumption). -/
theorem C4_confidence_in_unit_interval (st : Stores) (tx : Transaction)
    (hw : ∀ p ∈ st.patternStore, 0 ≤ p.confidence ∧ p.confidence ≤ 1) :
    ∀ pr ∈ generatePredictions st tx, 0 ≤ pr.confidence ∧ pr.confidence ≤ 1 := by
  intro pr hpr
  rcases generatePredictions_mem hpr with h | h | h
  · rcases getPatternPredictions_mem h with ⟨p, hps, _, hmk⟩
    rcases mkPatternPrediction_some hmk with ⟨hconf, _, _⟩
    rcases hw p hps with ⟨hw0, hw1⟩
    rcases rawScore_bounds p tx.description with ⟨hr0, hr1⟩
    rw [hconf]
    exact ⟨mul_nonneg hw0 hr0,
      le_trans (mul_le_mul hw1 hr1 hr0 zero_le_one) (by norm_num)⟩
  · rcases getDatabasePredictions_mem h with ⟨m, hconf⟩
    rw [hconf]
    exact historicalConfidence_bounds m.frequency
  · exact getAIPredictions_bounds pr h

/-- C4 witness: a weight-0.9 exact pattern produces the prediction with
confidence 0.9, inside the unit interval. -/
theorem C4_witness :
    0 ≤ (⟨[], 1, str "Acc", 9/10, PredictionType.pattern⟩ : Prediction).confidence
    ∧ (⟨[], 1, str "Acc", 9/10,
        PredictionType.pattern⟩ : Prediction).confidence ≤ 1 :=
  C4_confidence_in_unit_interval
    ⟨[⟨str "SALARY", PatternType.exact, none, 1, 9/10, true, some ⟨1, str "Acc"⟩⟩],
      [], []⟩
    ⟨1, str "SALARY", 0⟩ (by decide) _ (by decide)

/-- C4 counterexample: an enabled exact pattern with stored weight 2.00
(legal for a `decimal(3, 2)` column) matching the description makes
`generatePredictions` return confidence 2, outside [0, 1]. -/
theorem C4_counterexample :
    (generatePredictions
        ⟨[⟨str "RENT", PatternType.exact, none, 7, 2, true, some ⟨7, str "Rent"⟩⟩],
          [], []⟩
        ⟨1, str "RENT", 0⟩).map (fun pr => pr.confidence) = [2]
    ∧ ¬ ((2:ℚ) ≤ 1) :=
  ⟨by decide, by decide⟩

/-- C5 (corrected): the heuristic classifier queries
`where: eq(accounts.type, bestMatch.type), limit: 1` with no `active`
condition, so it resolves the first account of the selected
classification regardless of the active flag (the claim's "only an
active account" fails); it does produce the empty list when no token of
the lower-cased description hits the keyword table, or when no account of
the required classification exists at all. -/
theorem C5_heuristic_classifier (store : List Account) (tx : Transaction) (b : Bool) :
    (aiMatches tx.description = [] → getAIPredictions store tx = [])
    ∧ (∀ best, aiBest (aiMatches tx.description) = some best →
        store.filter (fun a => decide (a.type = best.1)) = [] →
        getAIPredictions store tx = [])
    ∧ getAIPredictions (store.map fun a => { a with active := b }) tx =
        getAIPredictions store tx := by
  refine ⟨fun h => ?_, fun best hb hf => ?_, ?_⟩
  · unfold getAIPredictions
    rw [h]
    rfl
  · unfold getAIPredictions
    rw [hb]
    show (match (store.filter fun a => decide (a.type = best.1)).take 1 with
      | [] => ([] : List Prediction)
      | acc :: _ =>
        [⟨aiExplanation best.1, acc.id, acc.name, best.2, PredictionType.ai⟩]) = []
    rw [hf]
    rfl
  · unfold getAIPredictions
    split
    · rfl
    next best hbest =>
      have hfm : ((store.map fun a => { a with active := b }).filter
          fun a => decide (a.type = best.1)) =
          (store.filter fun a => decide (a.type = best.1)).map
            fun a => { a with active := b } := by
        rw [List.filter_map]
        rfl
      rw [hfm, ← List.map_take]
      cases (store.filter fun a => decide (a.type = best.1)).take 1 with
      | nil => rfl
      | cons acc rest => rfl

/-- C5 witness: a description with no keyword-table token yields no
heuristic prediction. -/
theorem C5_witness :
    getAIPredictions [⟨1, str "4000", str "Income", str "income", true⟩]
      ⟨1, str "XYZ RANDOM TEXT 123", 0⟩ = [] :=
  (C5_heuristic_classifier
    [⟨1, str "4000", str "Income", str "income", true⟩]
    ⟨1, str "XYZ RANDOM TEXT 123", 0⟩ true).1 (by decide)

/-- C5 counterexample: with a store whose only `income` account is
inactive, the token "salary" still produces a prediction, so the
classifier does not resolve only active accounts as the claim states. -/
theorem C5_counterexample :
    getAIPredictions [⟨1, str "4000", str "Income", str "income", false⟩]
        ⟨1, str "salary", 0⟩ ≠ []
    ∧ ([⟨1, str "4000", str "Income", str "income", false⟩] :
        List Account).all (fun a => !a.active) = true :=
  ⟨by decide, by decide⟩

/-- C6 (corrected): per enabled pattern, the candidate is dropped at the
map/filter stage exactly when its raw score is below 0.5 or its account
does not resolve, and a surviving candidate's final confidence is the
stored weight times the raw score; but the claim's "dropped from the
result exactly when" fails for the full result, because the subsequent
sort-and-truncate to 3 can drop further qualifying patterns. -/
theorem C6_pattern_scoring (store : List Pattern) (tx : Transaction) :
    (∀ p : Pattern, mkPatternPrediction tx p = none ↔
        rawScore p tx.description < 1/2 ∨ p.account = none)
    ∧ (∀ (p : Pattern) (pr : Prediction), mkPatternPrediction tx p = some pr →
        pr.confidence = p.confidence * rawScore p tx.description)
    ∧ (∀ pr ∈ getPatternPredictions store tx,
        ∃ p, p ∈ store ∧ p.enabled = true ∧ mkPatternPrediction tx p = some pr) :=
  ⟨fun p => mkPatternPrediction_none_iff tx p,
    fun _ _ h => (mkPatternPrediction_some h).1,
    fun _ hpr => getPatternPredictions_mem hpr⟩

/-- C6 witness: a weight-1 exact pattern survives with confidence 1 and is
traced back to its source pattern. -/
theorem C6_witness :
    ∃ p, p ∈ [(⟨str "A", PatternType.exact, none, 1, 1, true,
        some ⟨1, str "a"⟩⟩ : Pattern)] ∧ p.enabled = true ∧
      mkPatternPrediction ⟨1, str "A", 0⟩ p =
        some ⟨[], 1, str "a", 1, PredictionType.pattern⟩ :=
  (C6_pattern_scoring
    [⟨str "A", PatternType.exact, none, 1, 1, true, some ⟨1, str "a"⟩⟩]
    ⟨1, str "A", 0⟩).2.2 ⟨[], 1, str "a", 1, PredictionType.pattern⟩ (by decide)

/-- C6 counterexample: four enabled exact patterns all score 1.0 with
resolvable accounts — all four qualify at the drop stage — yet the
result holds only three, so a pattern is dropped from the result even
though its score is not below 0.5 and its account resolves. -/
theorem C6_counterexample :
    ((([⟨str "A", PatternType.exact, none, 1, 1, true, some ⟨1, str "a"⟩⟩,
        ⟨str "A", PatternType.exact, none, 2, 1, true, some ⟨2, str "b"⟩⟩,
        ⟨str "A", PatternType.exact, none, 3, 1, true, some ⟨3, str "c"⟩⟩,
        ⟨str "A", PatternType.exact, none, 4, 1, true, some ⟨4, str "d"⟩⟩] :
        List Pattern).filter fun p => p.enabled).filterMap
        (mkPatternPrediction ⟨1, str "A", 0⟩)).length = 4
    ∧ (getPatternPredictions
        [⟨str "A", PatternType.exact, none, 1, 1, true, some ⟨1, str "a"⟩⟩,
          ⟨str "A", PatternType.exact, none, 2, 1, true, some ⟨2, str "b"⟩⟩,
          ⟨str "A", PatternType.exact, none, 3, 1, true, some ⟨3, str "c"⟩⟩,
          ⟨str "A", PatternType.exact, none, 4, 1, true, some ⟨4, str "d"⟩⟩]
        ⟨1, str "A", 0⟩).length = 3 :=
  ⟨by decide, by decide⟩

/-- C7 (confirmed): the aggregate is the stable descending-by-confidence
sort of the concatenation pattern ++ database ++ ai, truncated to 5, with
no deduplication: the sorted list is a permutation of the concatenation
(so every prediction survives, duplicate accounts included), it is
pairwise descending, and filtering each confidence class shows ties stay
in concatenation order — pattern first, then database, then ai, each in
its own output order. -/
theorem C7_aggregator_order (st : Stores) (tx : Transaction) :
    generatePredictions st tx =
      (sortStable predBefore
        (getPatternPredictions st.patternStore tx ++
          getDatabasePredictions st.historyStore tx ++
          getAIPredictions st.accountStore tx)).take 5
    ∧ SortedDesc (sortStable predBefore
        (getPatternPredictions st.patternStore tx ++
          getDatabasePredictions st.historyStore tx ++
          getAIPredictions st.accountStore tx))
    ∧ (sortStable predBefore
        (getPatternPredictions st.patternStore tx ++
          getDatabasePredictions st.historyStore tx ++
          getAIPredictions st.accountStore tx)).Perm
        (getPatternPredictions st.patternStore tx ++
          getDatabasePredictions st.historyStore tx ++
          getAIPredictions st.accountStore tx)
    ∧ ∀ c : ℚ, (sortStable predBefore
        (getPatternPredictions st.patternStore tx ++
          getDatabasePredictions st.historyStore tx ++
          getAIPredictions st.accountStore tx)).filter
          (fun a => decide (a.confidence = c)) =
        (getPatternPredictions st.patternStore tx ++
          getDatabasePredictions st.historyStore tx ++
          getAIPredictions st.accountStore tx).filter
          (fun a => decide (a.confidence = c)) :=
  ⟨rfl, sortStable_sortedDesc _, sortStable_perm _ _, fun c => filter_sortStable _ c⟩

/-- C8 (confirmed): the pattern matcher returns at most 3 predictions
(`slice(0, 3)`), the historical matcher at most 3 (`limit: 3` before its
account filter), the aggregator at most 5 (`slice(0, 5)`), and when all
three sources are empty the aggregate is the empty list, not an error. -/
theorem C8_bounded_output (st : Stores) (tx : Transaction) :
    (getPatternPredictions st.patternStore tx).length ≤ 3
    ∧ (getDatabasePredictions st.historyStore tx).length ≤ 3
    ∧ (generatePredictions st tx).length ≤ 5
    ∧ (getPatternPredictions st.patternStore tx = [] →
        getDatabasePredictions st.historyStore tx = [] →
        getAIPredictions st.accountStore tx = [] →
        generatePredictions st tx = []) := by
  refine ⟨List.length_take_le 3 _, ?_, List.length_take_le 5 _, fun h1 h2 h3 => ?_⟩
  · exact le_trans (List.length_filterMap_le _ _) (List.length_take_le 3 _)
  · unfold generatePredictions
    rw [h1, h2, h3]
    rfl

/-- C8 witness: empty stores give empty sources and the empty aggregate. -/
theorem C8_witness :
    generatePredictions ⟨[], [], []⟩ ⟨1, str "XYZ RANDOM TEXT 123", 0⟩ = [] :=
  (C8_bounded_output ⟨[], [], []⟩ ⟨1, str "XYZ RANDOM TEXT 123", 0⟩).2.2.2
    (by decide) (by decide) (by decide)

/-- C9 (confirmed): `calculateSimilarity` is symmetric — both inputs are
lowercased, string equality and the two-sided containment check are
symmetric, and Levenshtein distance and max-length normalization commute
with swapping the arguments. -/
theorem C9_similarity_symmetric (a b : Str) :
    calculateSimilarity a b = calculateSimilarity b a :=
  calculateSimilarity_symm a b

/-- C10 (confirmed): `calculateSimilarity` lowercases both inputs first,
so it is invariant under pre-lowercasing and two strings differing only
in letter case score 1.0 through the exact-equality branch — unlike the
pattern matcher's `exact` mode, which compares verbatim: an `exact`
pattern "ABC" scores 0 against description "abc" while the similarity
utility scores 1. -/
theorem C10_case_insensitive (a b : Str) :
    calculateSimilarity (toLowerStr a) (toLowerStr b) = calculateSimilarity a b
    ∧ (toLowerStr a = toLowerStr b → calculateSimilarity a b = 1)
    ∧ calculateSimilarity (str "ABC") (str "abc") = 1
    ∧ rawScore ⟨str "ABC", PatternType.exact, none, 1, 1, true, some ⟨1, str "A"⟩⟩
        (str "abc") = 0 := by
  refine ⟨calculateSimilarity_lower a b, fun h => ?_, by decide, by decide⟩
  unfold calculateSimilarity
  rw [h]
  unfold simBody
  rw [if_pos rfl]

/-- C10 witness: two case-variants of the same description score 1.0. -/
theorem C10_witness :
    calculateSimilarity (str "Monthly SALARY") (str "monthly salary") = 1 :=
  (C10_case_insensitive (str "Monthly SALARY") (str "monthly salary")).2.1
    (by decide)

end Predict
